import Mathlib

/-!
Verification of the struct-hr-attendance backend.

Shallow embedding of the repository's core logic:
* `backend/app/utils/status_refresh.py` (`refresh_employee_statuses`)
* `backend/app/routers/system_today.py` (`set_system_today`)
* `backend/app/routers/attendance.py` (`get_attendance_for_day`, `save_attendance`)
* `backend/app/routers/employees.py` (`apply_status_changes`, `update_employee_status`)

Dates are modelled as `Nat` day ordinals: the code only ever compares dates
with `=`, `<` and `<=`. Status values are stored as plain strings in the
database (`String(20)` columns), so they are modelled as `String`.
-/

set_option autoImplicit false

namespace StructHR

/-- Employee row (`models/employee.py`), restricted to the columns the
status/attendance logic reads or writes. Salary columns are omitted: none of
the verified routines touch them. -/
structure Employee where
  id : Nat
  emp_code : String
  name : String
  joining_date : Nat
  current_status : String
  status_change_date : Option Nat
  upcoming_status : Option String
deriving DecidableEq, Repr

/-- Pass 1 of `refresh_employee_statuses` (status_refresh.py lines 19-31), per
employee. The query filter is `status_change_date == today` together with
`upcoming_status IS NOT NULL`; each matched employee gets
`current_status := upcoming_status` and both scheduling fields cleared.
`Option.getD` extracts the status; the default is never used because the
filter guarantees `upcoming_status` is present. -/
def applyScheduledChange (today : Nat) (e : Employee) : Employee :=
  if e.status_change_date = some today ∧ e.upcoming_status ≠ none then
    { e with
      current_status := e.upcoming_status.getD e.current_status,
      upcoming_status := none,
      status_change_date := none }
  else e

/-- Pass 2 of `refresh_employee_statuses` (status_refresh.py lines 33-44), per
employee: the query filter is `current_status == "Inactive"` together with
`joining_date <= today`; each matched employee gets
`current_status := "Active"`. -/
def autoActivate (today : Nat) (e : Employee) : Employee :=
  if e.current_status = "Inactive" ∧ e.joining_date ≤ today then
    { e with current_status := "Active" }
  else e

/-- Pass 2 as it actually executes inside one session: the sessions are
created with `autoflush=False` (database.py line 7), so the SQL filter of the
pass-2 query evaluates against the unflushed database row `row` (the state at
entry to `refresh_employee_statuses`, before any pass-1 UPDATE was flushed),
while the assignment lands on the identity-mapped session object `e`, which
already carries the pass-1 modifications. -/
def autoActivateRow (today : Nat) (row e : Employee) : Employee :=
  if row.current_status = "Inactive" ∧ row.joining_date ≤ today then
    { e with current_status := "Active" }
  else e

/-- `refresh_employee_statuses(today, db)` (status_refresh.py lines 7-46),
run on a session whose state agrees with the database at entry (true at every
call site: the routine is either the first thing a route executes, or runs
right after a `db.commit()`). Pass 1 maps every employee through the
scheduled-transition update. Pass 2 pairs each unflushed database row — the
entry state, which its filter reads because the session has
`autoflush=False` — with the session object pass 1 produced for that same
employee, and activates accordingly. The trailing `db.commit()` then makes
the result both the session and the database state. -/
def refresh_employee_statuses (today : Nat) (db : List Employee) : List Employee :=
  List.zipWith (autoActivateRow today) db (db.map (applyScheduledChange today))

/-- Both passes applied to a single employee: the pass-2 filter reads the
entry state `e`, its assignment applies on top of the pass-1 result. -/
def refreshStep (today : Nat) (e : Employee) : Employee :=
  autoActivateRow today e (applyScheduledChange today e)

/-! ### Helper lemmas about the two passes -/

theorem applyScheduledChange_pos (today : Nat) (e : Employee)
    (h : e.status_change_date = some today ∧ e.upcoming_status ≠ none) :
    applyScheduledChange today e =
      { e with
        current_status := e.upcoming_status.getD e.current_status,
        upcoming_status := none,
        status_change_date := none } := by
  unfold applyScheduledChange
  exact if_pos h

theorem applyScheduledChange_neg (today : Nat) (e : Employee)
    (h : ¬ (e.status_change_date = some today ∧ e.upcoming_status ≠ none)) :
    applyScheduledChange today e = e := by
  unfold applyScheduledChange
  exact if_neg h

theorem autoActivate_pos (today : Nat) (e : Employee)
    (h : e.current_status = "Inactive" ∧ e.joining_date ≤ today) :
    autoActivate today e = { e with current_status := "Active" } := by
  unfold autoActivate
  exact if_pos h

theorem autoActivate_neg (today : Nat) (e : Employee)
    (h : ¬ (e.current_status = "Inactive" ∧ e.joining_date ≤ today)) :
    autoActivate today e = e := by
  unfold autoActivate
  exact if_neg h

theorem autoActivateRow_pos (today : Nat) (row e : Employee)
    (h : row.current_status = "Inactive" ∧ row.joining_date ≤ today) :
    autoActivateRow today row e = { e with current_status := "Active" } := by
  unfold autoActivateRow
  exact if_pos h

theorem autoActivateRow_neg (today : Nat) (row e : Employee)
    (h : ¬ (row.current_status = "Inactive" ∧ row.joining_date ≤ today)) :
    autoActivateRow today row e = e := by
  unfold autoActivateRow
  exact if_neg h

theorem refresh_eq_map (today : Nat) (db : List Employee) :
    refresh_employee_statuses today db = db.map (refreshStep today) := by
  induction db with
  | nil => rfl
  | cons e rest ih =>
    show autoActivateRow today e (applyScheduledChange today e)
        :: List.zipWith (autoActivateRow today) rest (rest.map (applyScheduledChange today))
      = refreshStep today e :: rest.map (refreshStep today)
    have ih' : List.zipWith (autoActivateRow today) rest (rest.map (applyScheduledChange today))
        = rest.map (refreshStep today) := ih
    rw [ih']
    rfl

/-- The refresh step is idempotent on any employee except one whose scheduled
transition is due today with target status `Inactive` while their joining
date is already reached (and whose current status is not already `Inactive`):
for such an employee the pass-2 filter — reading the unflushed entry row —
misses the `Inactive` value that pass 1 just wrote. -/
theorem refreshStep_idem_of_no_inactive_due (today : Nat) (e : Employee)
    (h : ¬ (e.status_change_date = some today ∧ e.upcoming_status = some "Inactive"
        ∧ e.joining_date ≤ today ∧ e.current_status ≠ "Inactive")) :
    refreshStep today (refreshStep today e) = refreshStep today e := by
  by_cases hA : e.status_change_date = some today ∧ e.upcoming_status ≠ none
  · obtain ⟨s, hs⟩ := Option.ne_none_iff_exists'.mp hA.2
    have he1 : applyScheduledChange today e = { e with
        current_status := s, upcoming_status := none, status_change_date := none } := by
      rw [applyScheduledChange_pos today e hA, hs]
      rfl
    by_cases hB : e.current_status = "Inactive" ∧ e.joining_date ≤ today
    · have hr : refreshStep today e = { e with
          current_status := "Active", upcoming_status := none, status_change_date := none } := by
        unfold refreshStep
        rw [he1, autoActivateRow_pos today e _ hB]
      rw [hr]
      unfold refreshStep
      rw [applyScheduledChange_neg today _ (fun hcp => hcp.2 rfl)]
      apply autoActivateRow_neg
      intro hc
      have hbad : ("Active" : String) = "Inactive" := hc.1
      exact absurd hbad (by decide)
    · have hr : refreshStep today e = { e with
          current_status := s, upcoming_status := none, status_change_date := none } := by
        unfold refreshStep
        rw [he1, autoActivateRow_neg today e _ hB]
      rw [hr]
      unfold refreshStep
      rw [applyScheduledChange_neg today _ (fun hcp => hcp.2 rfl)]
      apply autoActivateRow_neg
      intro hc
      have hsI : s = "Inactive" := hc.1
      have hj : e.joining_date ≤ today := hc.2
      exact h ⟨hA.1, by rw [hs, hsI], hj, fun hcur => hB ⟨hcur, hj⟩⟩
  · have he1 : applyScheduledChange today e = e := applyScheduledChange_neg today e hA
    by_cases hB : e.current_status = "Inactive" ∧ e.joining_date ≤ today
    · have hr : refreshStep today e = { e with current_status := "Active" } := by
        unfold refreshStep
        rw [he1, autoActivateRow_pos today e e hB]
      rw [hr]
      unfold refreshStep
      rw [applyScheduledChange_neg today { e with current_status := "Active" } hA]
      apply autoActivateRow_neg
      intro hc
      have hbad : ("Active" : String) = "Inactive" := hc.1
      exact absurd hbad (by decide)
    · have hr : refreshStep today e = e := by
        unfold refreshStep
        rw [he1, autoActivateRow_neg today e e hB]
      rw [hr]
      exact hr

/-! ### Claims about the refresh routine -/

/-- Claim C1: the scheduled-transition pass of `refresh` applies a transition
if and only if `status_change_date` equals `today` exactly and
`upcoming_status` is present; it then moves `upcoming_status` into
`current_status` and clears both scheduling fields. An employee whose
`status_change_date` is anything other than exactly `today` (strictly before
or strictly after), or whose `upcoming_status` is absent, is left entirely
unchanged by this pass. -/
theorem scheduled_transition_exact (today : Nat) (e : Employee) :
    (∀ s, e.upcoming_status = some s → e.status_change_date = some today →
      applyScheduledChange today e =
        { e with current_status := s, upcoming_status := none, status_change_date := none })
    ∧ (e.status_change_date ≠ some today → applyScheduledChange today e = e)
    ∧ (e.upcoming_status = none → applyScheduledChange today e = e) := by
  refine ⟨?_, ?_, ?_⟩
  · intro s hs hd
    have h1 := applyScheduledChange_pos today e ⟨hd, by rw [hs]; exact Option.some_ne_none s⟩
    rw [h1, hs]
    rfl
  · intro hd
    exact applyScheduledChange_neg today e (fun hc => hd hc.1)
  · intro hu
    exact applyScheduledChange_neg today e (fun hc => hc.2 hu)

/-- Witness for C1: an employee scheduled to move to Vacation on day 10 is
transitioned by the pass at `today = 10` and both scheduling fields clear. -/
theorem scheduled_transition_exact_witness :
    applyScheduledChange 10 ⟨1, "EMP01", "A", 5, "Active", some 10, some "Vacation"⟩
      = ⟨1, "EMP01", "A", 5, "Vacation", none, none⟩ :=
  (scheduled_transition_exact 10 ⟨1, "EMP01", "A", 5, "Active", some 10, some "Vacation"⟩).1
    "Vacation" rfl rfl

/-- Claim C2: the auto-activation pass of `refresh` sets `current_status` to
`Active` whenever `current_status` is `Inactive` and `joining_date <= today`
(the comparison is less-than-or-equal, so past joining dates are caught too),
and leaves the employee unchanged — in particular still `Inactive` — whenever
`joining_date > today`. -/
theorem auto_activation_threshold (today : Nat) (e : Employee) :
    (e.current_status = "Inactive" → e.joining_date ≤ today →
      autoActivate today e = { e with current_status := "Active" })
    ∧ (today < e.joining_date → autoActivate today e = e) := by
  constructor
  · intro h1 h2
    exact autoActivate_pos today e ⟨h1, h2⟩
  · intro h
    exact autoActivate_neg today e (fun hc => absurd hc.2 (Nat.not_le_of_lt h))

/-- Witness for C2: an Inactive employee with joining date 7 is activated at
`today = 9` (joining date already past). -/
theorem auto_activation_threshold_witness :
    autoActivate 9 ⟨2, "EMP02", "B", 7, "Inactive", none, none⟩
      = ⟨2, "EMP02", "B", 7, "Active", none, none⟩ :=
  (auto_activation_threshold 9 ⟨2, "EMP02", "B", 7, "Inactive", none, none⟩).1 rfl (by decide)

/-- Counterexample to claim C3: an employee with a transition to `Inactive`
scheduled for day 0, joining date 0 and current status `Active`. The first
`refresh(0)` applies pass 1 (leaving them `Inactive`), but pass 2's filter —
evaluated against the unflushed entry row, which still reads `Active` —
misses them; the second `refresh(0)` then activates them. The two states
differ, so `refresh` is not idempotent. -/
theorem refresh_not_idempotent_cex :
    refresh_employee_statuses 0 [⟨6, "EMP06", "F", 0, "Active", some 0, some "Inactive"⟩]
        = [⟨6, "EMP06", "F", 0, "Inactive", none, none⟩]
    ∧ refresh_employee_statuses 0 (refresh_employee_statuses 0
        [⟨6, "EMP06", "F", 0, "Active", some 0, some "Inactive"⟩])
        = [⟨6, "EMP06", "F", 0, "Active", none, none⟩]
    ∧ refresh_employee_statuses 0 (refresh_employee_statuses 0
        [⟨6, "EMP06", "F", 0, "Active", some 0, some "Inactive"⟩])
      ≠ refresh_employee_statuses 0 [⟨6, "EMP06", "F", 0, "Active", some 0, some "Inactive"⟩] := by
  refine ⟨by decide, by decide, by decide⟩

/-- Claim C3 as amended: `refresh_employee_statuses` is idempotent on every
collection containing no employee with a transition to `Inactive` due
exactly today while the joining date is already reached and the current
status is not yet `Inactive` — the one shape of record on which pass 2's
unflushed-row filter misses the value pass 1 just wrote. -/
theorem refresh_idempotent_of_no_inactive_due (today : Nat) (db : List Employee)
    (h : ∀ e ∈ db, ¬ (e.status_change_date = some today
        ∧ e.upcoming_status = some "Inactive"
        ∧ e.joining_date ≤ today
        ∧ e.current_status ≠ "Inactive")) :
    refresh_employee_statuses today (refresh_employee_statuses today db)
      = refresh_employee_statuses today db := by
  rw [refresh_eq_map, refresh_eq_map, List.map_map]
  apply List.map_congr_left
  intro e he
  exact refreshStep_idem_of_no_inactive_due today e (h e he)

/-- Witness for C3's amended claim: a transition to Vacation due today is
applied by the first refresh and the second refresh changes nothing. -/
theorem refresh_idempotent_of_no_inactive_due_witness :
    (∀ e ∈ [(⟨9, "EMP09", "I", 5, "Active", some 3, some "Vacation"⟩ : Employee)],
      ¬ (e.status_change_date = some 3 ∧ e.upcoming_status = some "Inactive"
          ∧ e.joining_date ≤ 3 ∧ e.current_status ≠ "Inactive"))
    ∧ refresh_employee_statuses 3 (refresh_employee_statuses 3
        [⟨9, "EMP09", "I", 5, "Active", some 3, some "Vacation"⟩])
      = refresh_employee_statuses 3 [⟨9, "EMP09", "I", 5, "Active", some 3, some "Vacation"⟩] := by
  have h : ∀ e ∈ [(⟨9, "EMP09", "I", 5, "Active", some 3, some "Vacation"⟩ : Employee)],
      ¬ (e.status_change_date = some 3 ∧ e.upcoming_status = some "Inactive"
          ∧ e.joining_date ≤ 3 ∧ e.current_status ≠ "Inactive") := by decide
  exact ⟨h, refresh_idempotent_of_no_inactive_due 3 _ h⟩

/-- Counterexample to claim C10: an employee whose scheduled transition to
`Inactive` applies in pass 1 of `refresh(0)` (joining date 0, so due) exits
that same invocation still `Inactive` with their joining date reached — pass
2's filter, reading the unflushed pre-pass-1 row (still `Active`), misses
them, contradicting the claimed invariant. -/
theorem refresh_overdue_inactive_cex :
    (⟨7, "EMP07", "G", 0, "Inactive", none, none⟩ : Employee)
        ∈ refresh_employee_statuses 0 [⟨7, "EMP07", "G", 0, "Active", some 0, some "Inactive"⟩]
    ∧ Employee.current_status ⟨7, "EMP07", "G", 0, "Inactive", none, none⟩ = "Inactive"
    ∧ Employee.joining_date ⟨7, "EMP07", "G", 0, "Inactive", none, none⟩ ≤ 0 := by
  refine ⟨by decide, by decide, by decide⟩

/-- Claim C10 as amended: an employee can come out of one invocation of
`refresh_employee_statuses` still `Inactive` with `joining_date <= today`
only the one way the counterexample exhibits: that same invocation's pass 1
moved a scheduled `Inactive` into `current_status` (so the pass-2 filter,
evaluated on the unflushed pre-pass-1 row, did not see it). Every such
employee arises from a source record with `status_change_date = today`,
`upcoming_status = Inactive` and a current status other than `Inactive`; all
other employees obey the no-overdue-Inactive invariant. -/
theorem refresh_overdue_inactive_source (today : Nat) (db : List Employee) (e : Employee)
    (he : e ∈ refresh_employee_statuses today db)
    (hc : e.current_status = "Inactive") (hj : e.joining_date ≤ today) :
    ∃ e0 ∈ db, refreshStep today e0 = e
      ∧ e0.status_change_date = some today
      ∧ e0.upcoming_status = some "Inactive"
      ∧ e0.current_status ≠ "Inactive" := by
  rw [refresh_eq_map] at he
  obtain ⟨e0, he0, heq⟩ := List.mem_map.mp he
  refine ⟨e0, he0, heq, ?_⟩
  by_cases hB : e0.current_status = "Inactive" ∧ e0.joining_date ≤ today
  · exfalso
    have hact : e.current_status = "Active" := by
      rw [← heq]
      unfold refreshStep
      rw [autoActivateRow_pos today e0 _ hB]
    rw [hact] at hc
    exact absurd hc (by decide)
  · have hstep : refreshStep today e0 = applyScheduledChange today e0 := by
      unfold refreshStep
      rw [autoActivateRow_neg today e0 _ hB]
    by_cases hA : e0.status_change_date = some today ∧ e0.upcoming_status ≠ none
    · obtain ⟨s, hs⟩ := Option.ne_none_iff_exists'.mp hA.2
      have he1 : applyScheduledChange today e0 = { e0 with
          current_status := s, upcoming_status := none, status_change_date := none } := by
        rw [applyScheduledChange_pos today e0 hA, hs]
        rfl
      have hcurr : e.current_status = s := by
        rw [← heq, hstep, he1]
      have hsI : s = "Inactive" := hcurr.symm.trans hc
      have hjoin : e.joining_date = e0.joining_date := by
        rw [← heq, hstep, he1]
      refine ⟨hA.1, by rw [hs, hsI], ?_⟩
      intro hc0
      apply hB
      refine ⟨hc0, ?_⟩
      rw [← hjoin]
      exact hj
    · exfalso
      have he1 : applyScheduledChange today e0 = e0 := applyScheduledChange_neg today e0 hA
      have hee : e = e0 := by rw [← heq, hstep, he1]
      rw [hee] at hc hj
      exact hB ⟨hc, hj⟩

/-- Witness for C10's amended claim: the Inactive-and-due employee produced
by a refresh is traced back to its same-day scheduled transition to
Inactive. -/
theorem refresh_overdue_inactive_source_witness :
    ((⟨8, "EMP08", "H", 0, "Inactive", none, none⟩ : Employee)
        ∈ refresh_employee_statuses 0 [⟨8, "EMP08", "H", 0, "Active", some 0, some "Inactive"⟩])
    ∧ ∃ e0 ∈ [(⟨8, "EMP08", "H", 0, "Active", some 0, some "Inactive"⟩ : Employee)],
        refreshStep 0 e0 = ⟨8, "EMP08", "H", 0, "Inactive", none, none⟩
        ∧ e0.status_change_date = some 0
        ∧ e0.upcoming_status = some "Inactive"
        ∧ e0.current_status ≠ "Inactive" := by
  have hm : (⟨8, "EMP08", "H", 0, "Inactive", none, none⟩ : Employee)
      ∈ refresh_employee_statuses 0 [⟨8, "EMP08", "H", 0, "Active", some 0, some "Inactive"⟩] := by
    decide
  exact ⟨hm, refresh_overdue_inactive_source 0 _ _ hm rfl (by decide)⟩

/-! ### Logical clock guard (`routers/system_today.py`) -/

/-- `set_system_today` (system_today.py lines 47-77). The stored clock is the
`manual_today` column of the singleton `SystemToday` row, modelled as
`Option Nat` (`None` when never set). The route raises HTTP 400 when the row
holds a value and the new date is strictly earlier; otherwise it stores the
new date. -/
def set_system_today (stored : Option Nat) (new_today : Nat) : Except String (Option Nat) :=
  match stored with
  | some v =>
    if new_today < v then
      Except.error "Today cannot be earlier than existing system date"
    else
      Except.ok (some new_today)
  | none => Except.ok (some new_today)

/-- The clock value persisted after a `set_system_today` call: the HTTP 400 is
raised before any assignment to the row, so on failure the stored value is
untouched. -/
def clockAfterSet (stored : Option Nat) (new_today : Nat) : Option Nat :=
  match set_system_today stored new_today with
  | Except.ok s => s
  | Except.error _ => stored

/-- Claim C4: `set_system_today` fails (leaving the stored clock unchanged)
exactly when a prior value exists and the new date is strictly earlier than
it; it succeeds and stores the new date when the new date is equal to or
later than the stored value, or when no value has ever been set. -/
theorem set_system_today_monotonic (stored : Option Nat) (new_today : Nat) :
    (∀ v, stored = some v → new_today < v →
      set_system_today stored new_today
          = Except.error "Today cannot be earlier than existing system date"
        ∧ clockAfterSet stored new_today = stored)
    ∧ (∀ v, stored = some v → v ≤ new_today →
      set_system_today stored new_today = Except.ok (some new_today)
        ∧ clockAfterSet stored new_today = some new_today)
    ∧ (stored = none →
      set_system_today stored new_today = Except.ok (some new_today)
        ∧ clockAfterSet stored new_today = some new_today) := by
  refine ⟨?_, ?_, ?_⟩
  · intro v hv hlt
    subst hv
    simp [set_system_today, clockAfterSet, hlt]
  · intro v hv hle
    subst hv
    simp [set_system_today, clockAfterSet, Nat.not_lt_of_le hle]
  · intro hv
    subst hv
    simp [set_system_today, clockAfterSet]

/-- Witness for C4: with the clock at 5, setting it to 3 is rejected and the
stored value stays 5. -/
theorem set_system_today_monotonic_witness :
    set_system_today (some 5) 3
        = Except.error "Today cannot be earlier than existing system date"
      ∧ clockAfterSet (some 5) 3 = some 5 :=
  (set_system_today_monotonic (some 5) 3).1 5 rfl (by decide)

/-! ### Transaction scope of the refresh routine -/

/-- Database state seen through one SQLAlchemy session: `committed` is the
durable state, `session` the working state holding uncommitted mutations. -/
structure DbState where
  committed : List Employee
  session : List Employee
deriving DecidableEq, Repr

/-- `db.commit()`: the session's pending mutations become durable. -/
def dbCommit (st : DbState) : DbState :=
  { st with committed := st.session }

/-- Transaction rollback (what happens to the session when the enclosing
operation fails): uncommitted mutations are discarded and the session returns
to the last committed state. -/
def dbRollback (st : DbState) : DbState :=
  { st with session := st.committed }

/-- `refresh_employee_statuses` as executed against a session: both passes
mutate the session and then the routine itself calls `db.commit()`
(status_refresh.py line 46). -/
def refreshTxn (today : Nat) (st : DbState) : DbState :=
  dbCommit { st with session := refresh_employee_statuses today st.session }

/-- Counterexample to claim C9: one Inactive employee whose joining date has
arrived; the caller invokes `refresh` and then fails, rolling its transaction
back. The claim says none of the refresh mutations reach the persisted state,
i.e. the committed state is still the original collection — but because
`refresh_employee_statuses` issues its own `db.commit()`, the persisted state
already holds the activated employee. -/
theorem refresh_commit_scope_cex :
    (dbRollback (refreshTxn 0
        ⟨[⟨4, "EMP04", "D", 0, "Inactive", none, none⟩],
         [⟨4, "EMP04", "D", 0, "Inactive", none, none⟩]⟩)).committed
      = [⟨4, "EMP04", "D", 0, "Active", none, none⟩]
    ∧ (dbRollback (refreshTxn 0
        ⟨[⟨4, "EMP04", "D", 0, "Inactive", none, none⟩],
         [⟨4, "EMP04", "D", 0, "Inactive", none, none⟩]⟩)).committed
      ≠ [⟨4, "EMP04", "D", 0, "Inactive", none, none⟩] := by
  constructor
  · decide
  · decide

/-- Claim C9 as amended: `refresh_employee_statuses` commits its own pass-1
and pass-2 mutations (it ends with `db.commit()`), so they do not share the
invoking caller's transaction boundary: whatever uncommitted work `f` the
caller performs afterwards, a failure and rollback of the caller's
transaction discards only `f`, while every refresh mutation remains in the
persisted state. -/
theorem refresh_commits_eagerly (today : Nat) (st : DbState)
    (f : List Employee → List Employee) :
    (dbRollback { refreshTxn today st with
        session := f (refreshTxn today st).session }).committed
      = refresh_employee_statuses today st.session
    ∧ (dbRollback { refreshTxn today st with
        session := f (refreshTxn today st).session }).session
      = refresh_employee_statuses today st.session :=
  ⟨rfl, rfl⟩

/-! ### Attendance store (`models/attendance.py`, `routers/attendance.py`) -/

/-- Attendance row (`models/attendance.py`): unique compound key
(`employee_id`, `attendance_date`), plus a plain string `status` column. The
surrogate `id` column plays no role in any verified routine and is omitted. -/
structure AttendanceRec where
  employee_id : Nat
  attendance_date : Nat
  status : String
deriving DecidableEq, Repr

/-- One item of a bulk save request (`schemas/attendance.py` lines 30-42):
`employee_id`, `attendance_date` and an unconstrained `status` string — the
schema declares `status: str` with no validator or enumeration. -/
structure AttendanceItem where
  employee_id : Nat
  attendance_date : Nat
  status : String
deriving DecidableEq, Repr

/-- First attendance row matching a key, as returned by
`query(...).filter(employee_id, attendance_date).first()`. The table has a
unique constraint on the pair, so at most one row ever matches. -/
def findRec (eid d : Nat) : List AttendanceRec → Option AttendanceRec
  | [] => none
  | r :: rest =>
    if r.employee_id = eid ∧ r.attendance_date = d then some r
    else findRec eid d rest

/-- Overwrite the status of the first row matching the item's key
(attendance.py lines 125-126, on the row returned by `.first()`). -/
def updateRec (item : AttendanceItem) : List AttendanceRec → List AttendanceRec
  | [] => []
  | r :: rest =>
    if r.employee_id = item.employee_id ∧ r.attendance_date = item.attendance_date then
      { r with status := item.status } :: rest
    else r :: updateRec item rest

/-- Key of a stored attendance row: the pair covered by the
`uix_employee_date` unique constraint (models/attendance.py lines 25-27). -/
def keyOf (r : AttendanceRec) : Nat × Nat :=
  (r.employee_id, r.attendance_date)

/-- Key an incoming item addresses. -/
def itemKey (it : AttendanceItem) : Nat × Nat :=
  (it.employee_id, it.attendance_date)

/-- One iteration of the `save_attendance` loop (attendance.py lines
112-135), acting on the pair (rows the session's queries can see, rows
pending insert). The session has `autoflush=False` (database.py line 7), so
the key lookup `.first()` sees only the database rows — never the unflushed
pending inserts — while a row already carrying an earlier uncommitted status
update is returned through the identity map with that update. A found row
has its status overwritten; a missing key becomes a `db.add` pending
insert. -/
def saveStep (acc : List AttendanceRec × List AttendanceRec) (item : AttendanceItem) :
    List AttendanceRec × List AttendanceRec :=
  if (findRec item.employee_id item.attendance_date acc.1).isSome then
    (updateRec item acc.1, acc.2)
  else
    (acc.1, acc.2 ++ [⟨item.employee_id, item.attendance_date, item.status⟩])

/-- `save_attendance` (attendance.py lines 95-139): an empty item list is
rejected with HTTP 400; otherwise the loop upserts every item with no
validation of its status value, and the final `db.commit()` either persists
everything and the item count is returned, or raises `IntegrityError` and
persists nothing. The INSERTs violate the `uix_employee_date` unique
constraint when two pending rows share a key (with `autoflush=False` the
second lookup cannot see the first pending insert), and the `employee_id`
foreign key when a pending row references no existing employee. -/
def save_attendance (items : List AttendanceItem) (employees : List Employee)
    (store : List AttendanceRec) : Except String (List AttendanceRec × Nat) :=
  if items = [] then
    Except.error "No attendance items provided"
  else if ((items.foldl saveStep (store, [])).2.map keyOf).Nodup
      ∧ ∀ r ∈ (items.foldl saveStep (store, [])).2,
          r.employee_id ∈ employees.map Employee.id then
    Except.ok
      ((items.foldl saveStep (store, [])).1 ++ (items.foldl saveStep (store, [])).2,
        items.length)
  else
    Except.error "IntegrityError"

theorem findRec_cons_pos (eid d : Nat) (r : AttendanceRec) (rest : List AttendanceRec)
    (h : r.employee_id = eid ∧ r.attendance_date = d) :
    findRec eid d (r :: rest) = some r := by
  simp only [findRec]
  rw [if_pos h]

theorem findRec_cons_neg (eid d : Nat) (r : AttendanceRec) (rest : List AttendanceRec)
    (h : ¬ (r.employee_id = eid ∧ r.attendance_date = d)) :
    findRec eid d (r :: rest) = findRec eid d rest := by
  simp only [findRec]
  rw [if_neg h]

/-- Updating an item's key rewrites exactly that key's stored status. -/
theorem findRec_updateRec_self (it : AttendanceItem) (s : List AttendanceRec) :
    findRec it.employee_id it.attendance_date (updateRec it s)
      = (findRec it.employee_id it.attendance_date s).map
          (fun r => { r with status := it.status }) := by
  induction s with
  | nil => rfl
  | cons r rest ih =>
    by_cases h : r.employee_id = it.employee_id ∧ r.attendance_date = it.attendance_date
    · have hu : updateRec it (r :: rest) = { r with status := it.status } :: rest := by
        simp only [updateRec]
        rw [if_pos h]
      rw [hu,
        findRec_cons_pos it.employee_id it.attendance_date { r with status := it.status } rest h,
        findRec_cons_pos it.employee_id it.attendance_date r rest h]
      rfl
    · have hu : updateRec it (r :: rest) = r :: updateRec it rest := by
        simp only [updateRec]
        rw [if_neg h]
      rw [hu,
        findRec_cons_neg it.employee_id it.attendance_date r (updateRec it rest) h,
        findRec_cons_neg it.employee_id it.attendance_date r rest h]
      exact ih

/-- Updating an item's key leaves every other key's lookup unchanged. -/
theorem findRec_updateRec_other (it : AttendanceItem) (s : List AttendanceRec)
    (eid d : Nat) (hne : ¬ (eid = it.employee_id ∧ d = it.attendance_date)) :
    findRec eid d (updateRec it s) = findRec eid d s := by
  induction s with
  | nil => rfl
  | cons r rest ih =>
    by_cases h : r.employee_id = it.employee_id ∧ r.attendance_date = it.attendance_date
    · have hu : updateRec it (r :: rest) = { r with status := it.status } :: rest := by
        simp only [updateRec]
        rw [if_pos h]
      by_cases h2 : r.employee_id = eid ∧ r.attendance_date = d
      · exact absurd ⟨h2.1.symm.trans h.1, h2.2.symm.trans h.2⟩ hne
      · rw [hu,
          findRec_cons_neg eid d { r with status := it.status } rest h2,
          findRec_cons_neg eid d r rest h2]
    · have hu : updateRec it (r :: rest) = r :: updateRec it rest := by
        simp only [updateRec]
        rw [if_neg h]
      by_cases h2 : r.employee_id = eid ∧ r.attendance_date = d
      · rw [hu,
          findRec_cons_pos eid d r (updateRec it rest) h2,
          findRec_cons_pos eid d r rest h2]
      · rw [hu,
          findRec_cons_neg eid d r (updateRec it rest) h2,
          findRec_cons_neg eid d r rest h2]
        exact ih

/-- The keys of the rows pending insert form a sublist of the keys the batch
addresses (each item appends at most one pending row, carrying its own
key). -/
theorem saveStep_pending_sublist (items : List AttendanceItem) (s p : List AttendanceRec) :
    ((items.foldl saveStep (s, p)).2.map keyOf).Sublist
      (p.map keyOf ++ items.map itemKey) := by
  induction items generalizing s p with
  | nil => simp
  | cons it rest ih =>
    rw [List.foldl_cons, List.map_cons]
    by_cases h : (findRec it.employee_id it.attendance_date s).isSome
    · have hs : saveStep (s, p) it = (updateRec it s, p) := by
        unfold saveStep
        rw [if_pos h]
      rw [hs]
      refine (ih (updateRec it s) p).trans ?_
      refine (List.append_sublist_append_left _).mpr ?_
      exact List.Sublist.cons _ (List.Sublist.refl _)
    · have hs : saveStep (s, p) it
          = (s, p ++ [⟨it.employee_id, it.attendance_date, it.status⟩]) := by
        unfold saveStep
        rw [if_neg h]
      rw [hs]
      refine (ih s _).trans ?_
      rw [List.map_append, List.append_assoc]
      exact List.Sublist.refl _

/-- Every row pending insert came verbatim from one of the batch's items. -/
theorem saveStep_pending_mem (items : List AttendanceItem) (s p : List AttendanceRec)
    (r : AttendanceRec) (hr : r ∈ (items.foldl saveStep (s, p)).2) :
    r ∈ p ∨ ∃ it ∈ items, r = ⟨it.employee_id, it.attendance_date, it.status⟩ := by
  induction items generalizing s p with
  | nil => exact Or.inl hr
  | cons it rest ih =>
    rw [List.foldl_cons] at hr
    by_cases h : (findRec it.employee_id it.attendance_date s).isSome
    · have hs : saveStep (s, p) it = (updateRec it s, p) := by
        unfold saveStep
        rw [if_pos h]
      rw [hs] at hr
      rcases ih _ _ hr with hp | ⟨it1, hit, heq⟩
      · exact Or.inl hp
      · exact Or.inr ⟨it1, List.mem_cons_of_mem it hit, heq⟩
    · have hs : saveStep (s, p) it
          = (s, p ++ [⟨it.employee_id, it.attendance_date, it.status⟩]) := by
        unfold saveStep
        rw [if_neg h]
      rw [hs] at hr
      rcases ih _ _ hr with hp | ⟨it1, hit, heq⟩
      · rcases List.mem_append.mp hp with hp1 | hp2
        · exact Or.inl hp1
        · rw [List.mem_singleton] at hp2
          exact Or.inr ⟨it, List.mem_cons_self it rest, hp2⟩
      · exact Or.inr ⟨it1, List.mem_cons_of_mem it hit, heq⟩

/-- Counterexample to claim C5: a one-item batch whose status is "OnLeave" —
outside {Present, PaidLeave, UnpaidLeave} — is not rejected: `save_attendance`
reports success, persists the row with the invalid status, and returns count
1. No `ValidationError` exists anywhere on this code path. -/
theorem save_attendance_no_validation_cex :
    save_attendance [⟨1, 10, "OnLeave"⟩] [⟨1, "EMP01", "A", 0, "Active", none, none⟩] []
        = Except.ok ([⟨1, 10, "OnLeave"⟩], 1)
    ∧ ("OnLeave" : String) ∉ (["Present", "PaidLeave", "UnpaidLeave"] : List String) := by
  constructor
  · rfl
  · decide

/-- Claim C5 as amended: `save_attendance` performs no validation of the
status value. A nonempty batch whose items address pairwise distinct keys
and reference existing employees succeeds with the count of its items; a key
with an existing row is updated in place (its lookup afterwards carries the
item's status, every other key is untouched); and when the pending inserts
collide on a key or reference a missing employee, the commit fails with
IntegrityError and no new state is returned (nothing is persisted). -/
theorem save_attendance_unvalidated_upsert (items : List AttendanceItem)
    (employees : List Employee) (store : List AttendanceRec) (h : items ≠ []) :
    ((items.map itemKey).Nodup →
      (∀ it ∈ items, it.employee_id ∈ employees.map Employee.id) →
      ∃ final, save_attendance items employees store = Except.ok (final, items.length))
    ∧ (∀ (it : AttendanceItem) (s : List AttendanceRec),
        findRec it.employee_id it.attendance_date (updateRec it s)
          = (findRec it.employee_id it.attendance_date s).map
              (fun r => { r with status := it.status }))
    ∧ (∀ (it : AttendanceItem) (s : List AttendanceRec) (eid d : Nat),
        ¬ (eid = it.employee_id ∧ d = it.attendance_date) →
        findRec eid d (updateRec it s) = findRec eid d s)
    ∧ (¬ (((items.foldl saveStep (store, [])).2.map keyOf).Nodup
          ∧ ∀ r ∈ (items.foldl saveStep (store, [])).2,
              r.employee_id ∈ employees.map Employee.id) →
        save_attendance items employees store = Except.error "IntegrityError") := by
  refine ⟨?_, fun it s => findRec_updateRec_self it s,
    fun it s eid d hne => findRec_updateRec_other it s eid d hne, ?_⟩
  · intro hkeys hids
    have hnodup : ((items.foldl saveStep (store, [])).2.map keyOf).Nodup := by
      have hsub := saveStep_pending_sublist items store []
      simp only [List.map_nil, List.nil_append] at hsub
      exact hkeys.sublist hsub
    have hfk : ∀ r ∈ (items.foldl saveStep (store, [])).2,
        r.employee_id ∈ employees.map Employee.id := by
      intro r hrm
      rcases saveStep_pending_mem items store [] r hrm with hp | ⟨it, hit, heq⟩
      · cases hp
      · rw [heq]
        exact hids it hit
    refine ⟨(items.foldl saveStep (store, [])).1 ++ (items.foldl saveStep (store, [])).2, ?_⟩
    unfold save_attendance
    rw [if_neg h, if_pos ⟨hnodup, hfk⟩]
  · intro hbad
    unfold save_attendance
    rw [if_neg h, if_neg hbad]

/-- Witness for C5's amended claim: a singleton batch addressed to an
existing employee is accepted with count 1. -/
theorem save_attendance_unvalidated_upsert_witness :
    (([⟨1, 10, "Present"⟩] : List AttendanceItem) ≠ [])
    ∧ (([⟨1, 10, "Present"⟩] : List AttendanceItem).map itemKey).Nodup
    ∧ (∀ it ∈ ([⟨1, 10, "Present"⟩] : List AttendanceItem),
        it.employee_id ∈ ([⟨1, "EMP01", "A", 0, "Active", none, none⟩] : List Employee).map
          Employee.id)
    ∧ ∃ final, save_attendance [⟨1, 10, "Present"⟩]
        [⟨1, "EMP01", "A", 0, "Active", none, none⟩] [] = Except.ok (final, 1) := by
  have h : ([⟨1, 10, "Present"⟩] : List AttendanceItem) ≠ [] := by simp
  refine ⟨h, by decide, by decide, ?_⟩
  exact (save_attendance_unvalidated_upsert [⟨1, 10, "Present"⟩]
    [⟨1, "EMP01", "A", 0, "Active", none, none⟩] [] h).1 (by decide) (by decide)

/-! ### Attendance read path (`get_attendance_for_day`) -/

/-- Status reported for one employee on the requested date (attendance.py
lines 72-77): the stored status when a row exists for the key, otherwise the
default "Present" — nothing is written. -/
def storedOrPresent (eid d : Nat) (store : List AttendanceRec) : String :=
  match findRec eid d store with
  | some r => r.status
  | none => "Present"

/-- The response row built for one active employee (attendance.py
lines 79-87). -/
structure AttendanceRowOut where
  employee_id : Nat
  emp_code : String
  name : String
  attendance_date : Nat
  status : String
deriving DecidableEq, Repr

def rowFor (d : Nat) (store : List AttendanceRec) (e : Employee) : AttendanceRowOut :=
  ⟨e.id, e.emp_code, e.name, d, storedOrPresent e.id d store⟩

/-- Insertion step of the `ORDER BY emp_code ASC` ordering. -/
def insertByCode (e : Employee) : List Employee → List Employee
  | [] => [e]
  | x :: xs =>
    if e.emp_code ≤ x.emp_code then e :: x :: xs
    else x :: insertByCode e xs

/-- Employees sorted by `emp_code` ascending. -/
def sortByCode (l : List Employee) : List Employee :=
  l.foldr insertByCode []

/-- `get_attendance_for_day` (attendance.py lines 28-89): refresh employee
statuses with `today`, take the employees who are Active afterwards ordered
by code, and build one row per such employee from the stored attendance (or
the unpersisted default "Present"). The routine writes nothing to the
attendance table, so the store component of the result is the input store.
Result components: employees after refresh, attendance store, response
rows. -/
def get_attendance_for_day (today attendance_date : Nat) (db : List Employee)
    (store : List AttendanceRec) :
    List Employee × List AttendanceRec × List AttendanceRowOut :=
  let db1 := refresh_employee_statuses today db
  let active := sortByCode (db1.filter (fun e => e.current_status = "Active"))
  (db1, store, active.map (rowFor attendance_date store))

theorem mem_insertByCode (a e : Employee) (l : List Employee) :
    a ∈ insertByCode e l ↔ a = e ∨ a ∈ l := by
  induction l with
  | nil => simp [insertByCode]
  | cons x xs ih =>
    unfold insertByCode
    split_ifs with h
    · simp [List.mem_cons]
    · simp only [List.mem_cons, ih]
      tauto

theorem mem_sortByCode (a : Employee) (l : List Employee) :
    a ∈ sortByCode l ↔ a ∈ l := by
  induction l with
  | nil => simp [sortByCode]
  | cons x xs ih =>
    show a ∈ insertByCode x (sortByCode xs) ↔ _
    rw [mem_insertByCode, ih, List.mem_cons]

/-- Claim C7: for every employee Active after the refresh performed by
`get_attendance_for_day`, the response contains that employee's row; its
status is the stored attendance status when a record exists for the key and
"Present" when none does; and the attendance store is returned unchanged — no
record is created by the query. -/
theorem attendance_read_only_defaults (today d : Nat) (db : List Employee)
    (store : List AttendanceRec) (e : Employee)
    (he : e ∈ (get_attendance_for_day today d db store).1)
    (ha : e.current_status = "Active") :
    (get_attendance_for_day today d db store).2.1 = store
    ∧ rowFor d store e ∈ (get_attendance_for_day today d db store).2.2
    ∧ (∀ r, findRec e.id d store = some r → (rowFor d store e).status = r.status)
    ∧ (findRec e.id d store = none → (rowFor d store e).status = "Present") := by
  refine ⟨rfl, ?_, ?_, ?_⟩
  · show rowFor d store e ∈
      (sortByCode ((refresh_employee_statuses today db).filter
        (fun e => e.current_status = "Active"))).map (rowFor d store)
    apply List.mem_map_of_mem
    rw [mem_sortByCode, List.mem_filter]
    exact ⟨he, by simp [ha]⟩
  · intro r hr
    simp [rowFor, storedOrPresent, hr]
  · intro hr
    simp [rowFor, storedOrPresent, hr]

/-- Witness for C7: a single Active employee and an empty attendance store;
the store stays empty and the employee's row defaults to "Present". -/
theorem attendance_read_only_defaults_witness :
    ((⟨5, "EMP05", "E", 0, "Active", none, none⟩ : Employee)
        ∈ (get_attendance_for_day 0 3 [⟨5, "EMP05", "E", 0, "Active", none, none⟩] []).1)
    ∧ (get_attendance_for_day 0 3 [⟨5, "EMP05", "E", 0, "Active", none, none⟩] []).2.1 = []
    ∧ (rowFor 3 [] ⟨5, "EMP05", "E", 0, "Active", none, none⟩).status = "Present" := by
  have hm : (⟨5, "EMP05", "E", 0, "Active", none, none⟩ : Employee)
      ∈ (get_attendance_for_day 0 3 [⟨5, "EMP05", "E", 0, "Active", none, none⟩] []).1 := by
    show _ ∈ refresh_employee_statuses 0 [(⟨5, "EMP05", "E", 0, "Active", none, none⟩ : Employee)]
    have hr : refresh_employee_statuses 0 [(⟨5, "EMP05", "E", 0, "Active", none, none⟩ : Employee)]
        = [⟨5, "EMP05", "E", 0, "Active", none, none⟩] := by decide
    rw [hr]
    exact List.mem_singleton.mpr rfl
  have hth := attendance_read_only_defaults 0 3
    [⟨5, "EMP05", "E", 0, "Active", none, none⟩] [] ⟨5, "EMP05", "E", 0, "Active", none, none⟩
    hm rfl
  exact ⟨hm, hth.1, hth.2.2.2 rfl⟩

/-! ### Status scheduling (`routers/employees.py`) -/

/-- One row of the bulk status-change request
(`schemas/employee.py` lines 61-67). -/
structure StatusChangeItem where
  emp_code : String
  new_status : String
  effective_date : Nat
deriving DecidableEq, Repr

/-- Effect of one change item on one employee (employees.py lines 164-181):
the matching employee first gets the pending fields written, then — when
`effective_date <= today` — the change is applied immediately:
`current_status := new_status` and both pending fields cleared again. An
employee whose code differs is untouched; nothing is ever rejected. -/
def applyChange (today : Nat) (c : StatusChangeItem) (e : Employee) : Employee :=
  if e.emp_code = c.emp_code then
    let e1 := { e with
      upcoming_status := some c.new_status,
      status_change_date := some c.effective_date }
    if c.effective_date ≤ today then
      { e1 with
        current_status := c.new_status,
        upcoming_status := none,
        status_change_date := none }
    else e1
  else e

/-- `apply_status_changes` (employees.py lines 146-188): each change is
looked up by `emp_code` (unique column, so the per-employee map matches the
`first()` lookup); a change whose code matches no employee is skipped
silently (the route's own comment says so). After the loop the route commits
and calls `refresh_employee_statuses(today, db)`. -/
def apply_status_changes (today : Nat) (changes : List StatusChangeItem)
    (db : List Employee) : List Employee :=
  refresh_employee_statuses today
    (changes.foldl (fun d c => d.map (applyChange today c)) db)

/-- Counterexample to claim C6: a change whose `effective_date` (3) is
strictly earlier than `today` (5) is not rejected with any
`InvalidEffectiveDate` condition — `apply_status_changes` returns normally
and the employee's `current_status` has been changed to the new status. -/
theorem schedule_change_past_date_cex :
    apply_status_changes 5 [⟨"EMP01", "Vacation", 3⟩]
        [⟨1, "EMP01", "A", 0, "Active", none, none⟩]
      = [⟨1, "EMP01", "A", 0, "Vacation", none, none⟩]
    ∧ (3 : Nat) < 5 := by
  constructor
  · decide
  · decide

/-- Claim C6 as amended: `apply_status_changes` never rejects a change item.
For the employee whose code matches the item: when
`effective_date <= today` the change is applied immediately —
`current_status := new_status` with both pending fields left clear — and when
`effective_date > today` it is stored as pending —
`upcoming_status := new_status`, `status_change_date := effective_date`. -/
theorem schedule_change_policy (today : Nat) (c : StatusChangeItem) (e : Employee)
    (hm : e.emp_code = c.emp_code) :
    (c.effective_date ≤ today →
      applyChange today c e = { e with
        current_status := c.new_status,
        upcoming_status := none,
        status_change_date := none })
    ∧ (today < c.effective_date →
      applyChange today c e = { e with
        upcoming_status := some c.new_status,
        status_change_date := some c.effective_date }) := by
  constructor
  · intro hle
    unfold applyChange
    rw [if_pos hm, if_pos hle]
  · intro hgt
    unfold applyChange
    rw [if_pos hm, if_neg (Nat.not_le_of_lt hgt)]

/-- Witness for C6's amended claim: a future-dated change (effective 7,
today 5) is stored as a pending transition. -/
theorem schedule_change_policy_witness :
    applyChange 5 ⟨"EMP01", "Vacation", 7⟩ ⟨1, "EMP01", "A", 0, "Active", none, none⟩
      = ⟨1, "EMP01", "A", 0, "Active", some 7, some "Vacation"⟩ :=
  (schedule_change_policy 5 ⟨"EMP01", "Vacation", 7⟩
    ⟨1, "EMP01", "A", 0, "Active", none, none⟩ rfl).2 (by decide)

/-! ### Single-employee status update (`update_employee_status`) -/

/-- Field updates performed by `update_employee_status` (employees.py lines
136-139): each payload field is written only when supplied. -/
def applyStatusUpdate (scd : Option Nat) (us : Option String) (e : Employee) : Employee :=
  { e with
    upcoming_status := match us with
      | some s => some s
      | none => e.upcoming_status,
    status_change_date := match scd with
      | some d => some d
      | none => e.status_change_date }

/-- `update_employee_status` (employees.py lines 118-143): look up the first
employee with the given code; raise HTTP 404 "Employee not found" when none
exists (before any mutation), otherwise update that employee's scheduling
fields. -/
def update_employee_status (code : String) (scd : Option Nat) (us : Option String) :
    List Employee → Except String (List Employee)
  | [] => Except.error "Employee not found"
  | e :: rest =>
    if e.emp_code = code then
      Except.ok (applyStatusUpdate scd us e :: rest)
    else
      match update_employee_status code scd us rest with
      | Except.ok rest1 => Except.ok (e :: rest1)
      | Except.error msg => Except.error msg

theorem update_employee_status_not_found (code : String) (scd : Option Nat)
    (us : Option String) (db : List Employee)
    (h : ∀ e ∈ db, e.emp_code ≠ code) :
    update_employee_status code scd us db = Except.error "Employee not found" := by
  induction db with
  | nil => rfl
  | cons e rest ih =>
    unfold update_employee_status
    rw [if_neg (h e (List.mem_cons_self e rest))]
    rw [ih (fun x hx => h x (List.mem_cons_of_mem e hx))]

theorem apply_status_changes_skips_unknown (today : Nat) (c : StatusChangeItem)
    (db : List Employee) (h : ∀ e ∈ db, e.emp_code ≠ c.emp_code) :
    apply_status_changes today [c] db = refresh_employee_statuses today db := by
  unfold apply_status_changes
  congr 1
  show db.map (applyChange today c) = db
  calc db.map (applyChange today c)
      = db.map id := List.map_congr_left (fun e he => by
          show applyChange today c e = e
          unfold applyChange
          exact if_neg (h e he))
    _ = db := List.map_id db

/-- Counterexample to claim C8: a bulk status change referencing the
nonexistent code "EMP99" does not surface any NotFound condition —
`apply_status_changes` completes normally, silently ignoring the item and
leaving the lone (unrelated) employee untouched. -/
theorem nonexistent_code_silently_skipped_cex :
    apply_status_changes 5 [⟨"EMP99", "Vacation", 7⟩]
        [⟨1, "EMP01", "A", 0, "Active", none, none⟩]
      = [⟨1, "EMP01", "A", 0, "Active", none, none⟩] := by
  decide

/-- Claim C8 as amended: the single-employee update `update_employee_status`
does fail with the NotFound condition ("Employee not found", HTTP 404) and
performs no mutation when its code matches no employee, but the bulk
`apply_status_changes` does not surface NotFound for an unknown code: it
silently skips that item, the only effect of the call being the final
refresh pass. -/
theorem nonexistent_code_handling (code : String) (scd : Option Nat)
    (us : Option String) (today : Nat) (c : StatusChangeItem) (db : List Employee)
    (h1 : ∀ e ∈ db, e.emp_code ≠ code) (h2 : ∀ e ∈ db, e.emp_code ≠ c.emp_code) :
    update_employee_status code scd us db = Except.error "Employee not found"
    ∧ apply_status_changes today [c] db = refresh_employee_statuses today db :=
  ⟨update_employee_status_not_found code scd us db h1,
   apply_status_changes_skips_unknown today c db h2⟩

/-- Witness for C8's amended claim at a concrete store with one employee and
two unknown codes. -/
theorem nonexistent_code_handling_witness :
    update_employee_status "EMP99" none none [⟨1, "EMP01", "A", 0, "Active", none, none⟩]
        = Except.error "Employee not found"
    ∧ apply_status_changes 0 [⟨"EMP98", "Vacation", 1⟩]
        [⟨1, "EMP01", "A", 0, "Active", none, none⟩]
      = refresh_employee_statuses 0 [⟨1, "EMP01", "A", 0, "Active", none, none⟩] := by
  refine nonexistent_code_handling "EMP99" none none 0 ⟨"EMP98", "Vacation", 1⟩
    [⟨1, "EMP01", "A", 0, "Active", none, none⟩] ?_ ?_
  · intro e he
    rw [List.mem_singleton] at he
    subst he
    decide
  · intro e he
    rw [List.mem_singleton] at he
    subst he
    decide

end StructHR
